import Mathlib

/-!
Verification development for the pdf-chat-app repository.

The repository is a browser chat client (`App.jsx` / `AppContent` plus
`ChatWindow.jsx`) that keeps a list of chat sessions in component state,
persists them as JSON under the `chatHistory` key of local storage, and
wires the UI handlers (`createNewChat`, `handleDeleteChat`,
`handleFileUpload`, `handleSendMessage`, `handleSubmit`) to two external
HTTP services (`processPDF`, `queryLLM`).

This file shallowly embeds the data model and those handlers.  Asynchronous
handlers are embedded as sequential functions taking the outcome of the
external call (`Except`) as an argument; each `setChats` call of the source
becomes one state transformation, applied in program order.  The browser's
`JSON.parse` is embedded as an executable recursive-descent parser over a
`Json` value tree, and `JSON.stringify` on the session objects is embedded
at the value level by `encodeChats`.
-/

/-- One turn in a conversation, as built by the object literals in
`handleSendMessage` and `handleFileUpload` (`{ id, content, sender,
timestamp }`). -/
structure Message where
  id : String
  content : String
  sender : String
  timestamp : String
  deriving DecidableEq, Repr

/-- A JSON value as produced by `JSON.parse` / consumed by `JSON.stringify`.
Number literals are kept verbatim (`num lit`); object members keep insertion
order, as JavaScript objects do. -/
inductive Json where
  | null : Json
  | bool (b : Bool) : Json
  | num (lit : String) : Json
  | str (s : String) : Json
  | arr (elems : List Json) : Json
  | obj (members : List (String × Json)) : Json
  deriving Repr

/-- One chat session, as built by the object literal in `createNewChat`
(`{ id, title, messages, createdAt }`) and optionally extended with
`pdfData` by `handleFileUpload`. -/
structure Chat where
  id : String
  title : String
  messages : List Message
  createdAt : String
  pdfData : Option Json := none

/-- The component state of `AppContent` relevant to the session store:
the `chats` list and the `activeChat` identifier (`null` or a chat id). -/
structure AppState where
  chats : List Chat
  activeChat : Option String

/-- `createNewChat`: builds `{ id: uuidv4(), title: 'New Chat', messages: [],
createdAt: ... }`, prepends it (`[newChat, ...chats]`) and makes it active.
The generated uuid and timestamp are passed in as `newId` / `now`. -/
def createNewChat (s : AppState) (newId now : String) : AppState :=
  let newChat : Chat :=
    { id := newId, title := "New Chat", messages := [], createdAt := now }
  { chats := newChat :: s.chats, activeChat := some newId }

/-- `handleDeleteChat(id)`: filters the chat with that id out of the list and,
when `activeChat === id`, sets `activeChat` to `null`. -/
def handleDeleteChat (s : AppState) (id : String) : AppState :=
  { chats := s.chats.filter (fun chat => chat.id ≠ id),
    activeChat := if s.activeChat = some id then none else s.activeChat }

/-- The map applied by `setChats` in `handleSendMessage`'s first update
(and, without the extra fields, inside `handleFileUpload`): append a message
to the chat whose `id` equals the active identifier, leave every other chat
untouched.  `chat.id === activeChat` is false when `activeChat` is `null`. -/
def appendMessage (chats : List Chat) (active : Option String) (msg : Message) :
    List Chat :=
  chats.map fun chat =>
    if some chat.id = active then
      { chat with messages := chat.messages ++ [msg] }
    else chat

/-- The map applied by `setChats` in `handleFileUpload` on success: the chat
whose id is the active identifier gets `pdfData := result`,
`title := "PDF: " ++ file.name` and one appended system message; every other
chat is untouched. -/
def attachPdf (chats : List Chat) (active : Option String) (fileName : String)
    (result : Json) (msgId ts : String) : List Chat :=
  chats.map fun chat =>
    if some chat.id = active then
      { chat with
        pdfData := some result,
        title := "PDF: " ++ fileName,
        messages := chat.messages ++
          [{ id := msgId,
             content := "Uploaded and processed PDF: " ++ fileName,
             sender := "system",
             timestamp := ts }] }
    else chat

/-- `handleFileUpload(file)`: awaits `processPDF(file)`; on success performs
the single `setChats` embedded as `attachPdf` (and shows a success toast), on
failure only shows an error toast whose description is `error.message ||
'Failed to process PDF'`.  The external call's outcome is the `result`
argument; the returned `Option String` is the error-toast description. -/
def handleFileUpload (s : AppState) (fileName : String)
    (result : Except String Json) (msgId ts : String) :
    AppState × Option String :=
  match result with
  | .ok payload =>
      ({ s with chats := attachPdf s.chats s.activeChat fileName payload msgId ts },
       none)
  | .error e => (s, some e)

/-- The whitespace set of JavaScript's `String.prototype.trim` (WhiteSpace
and LineTerminator code points). -/
def isJsWhitespace (c : Char) : Bool :=
  let n := c.toNat
  n = 0x9 || n = 0xA || n = 0xB || n = 0xC || n = 0xD || n = 0x20 ||
  n = 0xA0 || n = 0x1680 || (0x2000 <= n && n <= 0x200A) ||
  n = 0x2028 || n = 0x2029 || n = 0x202F || n = 0x205F || n = 0x3000 ||
  n = 0xFEFF

/-- `message.trim()`: strips leading and trailing JavaScript whitespace. -/
def jsTrim (s : String) : String :=
  String.mk (((s.toList.dropWhile isJsWhitespace).reverse.dropWhile
    isJsWhitespace).reverse)

/-- The arguments `handleSendMessage` passes to `queryLLM`:
`{ message, chatHistory, context }`. -/
structure QueryArgs where
  message : String
  chatHistory : List Message
  context : Option Json
  deriving Repr

/-- `handleSendMessage(message)`: returns early when `!message.trim() ||
!activeChat`; otherwise appends the user message (first `setChats`), calls
`queryLLM` with the updated active transcript and the active chat's
`pdfData`, and on success appends the AI message and recomputes the title
(second, functional `setChats`); on failure only shows an error toast.
The external call's outcome is the `llm` argument (`response.answer` on
success); generated uuids/timestamps are passed in.  Returns the final
state, the `queryLLM` arguments when the call was made, and the error-toast
description when one was shown. -/
def handleSendMessage (s : AppState) (message : String)
    (llm : Except String String) (userMsgId userTs aiMsgId aiTs : String) :
    AppState × Option QueryArgs × Option String :=
  if jsTrim message = "" ∨ s.activeChat = none then (s, none, none)
  else
    let userMessage : Message :=
      { id := userMsgId, content := message, sender := "user", timestamp := userTs }
    let updatedChats := s.chats.map fun chat =>
      if some chat.id = s.activeChat then
        { chat with messages := chat.messages ++ [userMessage] }
      else chat
    let activeSession := updatedChats.find? fun c => some c.id = s.activeChat
    let args : QueryArgs :=
      { message := message,
        chatHistory := (activeSession.map Chat.messages).getD [],
        context := activeSession.bind Chat.pdfData }
    match llm with
    | .ok answer =>
        let aiMessage : Message :=
          { id := aiMsgId, content := answer, sender := "ai", timestamp := aiTs }
        let finalChats := updatedChats.map fun chat =>
          if some chat.id = s.activeChat then
            { chat with
              messages := chat.messages ++ [aiMessage],
              title := if chat.messages.length = 0
                then message.take 30 ++ "..." else chat.title }
          else chat
        ({ s with chats := finalChats }, some args, none)
    | .error e => ({ s with chats := updatedChats }, some args, some e)

/-- `ChatWindow.handleSubmit`: dispatches `onSendMessage(message)` and clears
the input only when `message.trim()` is truthy (non-empty).  Returns the
dispatched message (if any) and the new input-field value. -/
def handleSubmit (message : String) : Option String × String :=
  if jsTrim message ≠ "" then (some message, "") else (none, message)

/-- A create-or-delete user action on the session store, as dispatched by
the sidebar (`onCreateNewChat` / `onDeleteChat`). -/
inductive SessionOp where
  | create (newId now : String) : SessionOp
  | delete (id : String) : SessionOp

/-- Apply one sidebar action to the component state. -/
def applyOp (s : AppState) (op : SessionOp) : AppState :=
  match op with
  | .create newId now => createNewChat s newId now
  | .delete id => handleDeleteChat s id

/-- Run a sequence of sidebar actions in order. -/
def runOps (s : AppState) (ops : List SessionOp) : AppState :=
  ops.foldl applyOp s

/-- The initial component state: `useState` starts `activeChat` at `null`,
and `chats` at `[]` when nothing usable is persisted. -/
def initialState : AppState := { chats := [], activeChat := none }

/-- The active-session invariant: `activeChat` is unset or names a chat
present in the list. -/
def activeOk (s : AppState) : Prop :=
  ∀ id, s.activeChat = some id → id ∈ s.chats.map Chat.id

/-- `JSON.stringify` applied to one message object: the literal's keys in
insertion order, all string-valued. -/
def encodeMessage (m : Message) : Json :=
  .obj [("id", .str m.id), ("content", .str m.content),
        ("sender", .str m.sender), ("timestamp", .str m.timestamp)]

/-- `JSON.stringify` applied to one chat object: the `createNewChat`
literal's keys in insertion order; a spread-added `pdfData` key comes last
and is absent (dropped `undefined`) when no document was attached. -/
def encodeChat (c : Chat) : Json :=
  .obj ([("id", .str c.id), ("title", .str c.title),
         ("messages", .arr (c.messages.map encodeMessage)),
         ("createdAt", .str c.createdAt)] ++
        (match c.pdfData with
         | some payload => [("pdfData", payload)]
         | none => []))

/-- `JSON.stringify(chats)`: the JSON value persisted under `chatHistory`. -/
def encodeChats (chats : List Chat) : Json :=
  .arr (chats.map encodeChat)

/-- Read one message object back from its persisted JSON value. -/
def decodeMessage : Json → Option Message
  | .obj [("id", .str i), ("content", .str c),
          ("sender", .str sd), ("timestamp", .str t)] =>
      some { id := i, content := c, sender := sd, timestamp := t }
  | _ => none

/-- Read a message array back from its persisted JSON values. -/
def decodeMessages : List Json → Option (List Message)
  | [] => some []
  | j :: rest =>
      match decodeMessage j, decodeMessages rest with
      | some m, some ms => some (m :: ms)
      | _, _ => none

/-- Read one chat object back from its persisted JSON value (with or
without the trailing `pdfData` member). -/
def decodeChat : Json → Option Chat
  | .obj [("id", .str i), ("title", .str t), ("messages", .arr ms),
          ("createdAt", .str ca)] =>
      (decodeMessages ms).map fun msgs =>
        { id := i, title := t, messages := msgs, createdAt := ca }
  | .obj [("id", .str i), ("title", .str t), ("messages", .arr ms),
          ("createdAt", .str ca), ("pdfData", payload)] =>
      (decodeMessages ms).map fun msgs =>
        { id := i, title := t, messages := msgs, createdAt := ca,
          pdfData := some payload }
  | _ => none

/-- Read a chat array back from its persisted JSON values. -/
def decodeChatList : List Json → Option (List Chat)
  | [] => some []
  | j :: rest =>
      match decodeChat j, decodeChatList rest with
      | some c, some cs => some (c :: cs)
      | _, _ => none

/-- Read the session list back from the persisted JSON value. -/
def decodeChats : Json → Option (List Chat)
  | .arr elems => decodeChatList elems
  | _ => none

/-- The whitespace accepted between JSON tokens by `JSON.parse`. -/
def isJsonWs (c : Char) : Bool :=
  c = ' ' || c = '\t' || c = '\n' || c = '\r'

/-- Skip inter-token whitespace. -/
def skipJsonWs : List Char → List Char
  | [] => []
  | c :: rest => if isJsonWs c then skipJsonWs rest else c :: rest

/-- Value of one hexadecimal digit, for `\uXXXX` escapes. -/
def hexVal (c : Char) : Option Nat :=
  if '0' ≤ c ∧ c ≤ '9' then some (c.toNat - '0'.toNat)
  else if 'a' ≤ c ∧ c ≤ 'f' then some (c.toNat - 'a'.toNat + 10)
  else if 'A' ≤ c ∧ c ≤ 'F' then some (c.toNat - 'A'.toNat + 10)
  else none

/-- Parse the body of a JSON string literal (the opening quote already
consumed), handling the escape sequences `JSON.parse` accepts. -/
def parseStringBody (acc : List Char) : List Char → Except String (String × List Char)
  | [] => .error "Unterminated string in JSON"
  | c :: rest =>
    if c = '"' then .ok (String.mk acc.reverse, rest)
    else if c = '\\' then
      match rest with
      | [] => .error "Unterminated string in JSON"
      | e :: rest2 =>
        if e = '"' then parseStringBody ('"' :: acc) rest2
        else if e = '\\' then parseStringBody ('\\' :: acc) rest2
        else if e = '/' then parseStringBody ('/' :: acc) rest2
        else if e = 'b' then parseStringBody ('\x08' :: acc) rest2
        else if e = 'f' then parseStringBody ('\x0c' :: acc) rest2
        else if e = 'n' then parseStringBody ('\n' :: acc) rest2
        else if e = 'r' then parseStringBody ('\r' :: acc) rest2
        else if e = 't' then parseStringBody ('\t' :: acc) rest2
        else if e = 'u' then
          match rest2 with
          | h1 :: h2 :: h3 :: h4 :: rest3 =>
            match hexVal h1, hexVal h2, hexVal h3, hexVal h4 with
            | some a, some b, some c2, some d =>
                parseStringBody (Char.ofNat (a * 4096 + b * 256 + c2 * 16 + d) :: acc) rest3
            | _, _, _, _ => .error "Bad Unicode escape in JSON"
          | _ => .error "Bad Unicode escape in JSON"
        else .error "Bad escaped character in JSON"
    else if c.toNat < 0x20 then
      .error "Bad control character in string literal in JSON"
    else parseStringBody (c :: acc) rest

/-- Split a leading run of decimal digits off a character list. -/
def takeDigits : List Char → List Char × List Char
  | [] => ([], [])
  | c :: rest =>
    if c.isDigit then
      let (ds, r) := takeDigits rest
      (c :: ds, r)
    else ([], c :: rest)

/-- Parse a JSON number literal per the JSON grammar (optional minus, no
leading zeros, optional fraction and exponent), keeping the lexeme. -/
def parseNumber (cs : List Char) : Except String (String × List Char) :=
  let (sign, cs1) :=
    match cs with
    | '-' :: r => (['-'], r)
    | _ => ([], cs)
  match cs1 with
  | [] => .error "Unexpected end of JSON input"
  | c :: rest =>
    let intResult : Except String (List Char × List Char) :=
      if c = '0' then .ok (['0'], rest)
      else if c.isDigit then
        let (ds, r) := takeDigits rest
        .ok (c :: ds, r)
      else .error "Unexpected token in JSON"
    match intResult with
    | .error e => .error e
    | .ok (intPart, cs2) =>
      let fracResult : Except String (List Char × List Char) :=
        match cs2 with
        | '.' :: r =>
          let (ds, r2) := takeDigits r
          if ds = [] then .error "Unterminated fractional number in JSON"
          else .ok ('.' :: ds, r2)
        | _ => .ok ([], cs2)
      match fracResult with
      | .error e => .error e
      | .ok (fracPart, cs3) =>
        let expResult : Except String (List Char × List Char) :=
          match cs3 with
          | e :: r =>
            if e = 'e' ∨ e = 'E' then
              let (signE, r2) :=
                match r with
                | '+' :: r3 => (['+'], r3)
                | '-' :: r3 => (['-'], r3)
                | _ => ([], r)
              let (ds, r3) := takeDigits r2
              if ds = [] then .error "Exponent part is missing a number in JSON"
              else .ok (e :: (signE ++ ds), r3)
            else .ok ([], cs3)
          | [] => .ok ([], cs3)
        match expResult with
        | .error e => .error e
        | .ok (expPart, cs4) =>
          .ok (String.mk (sign ++ intPart ++ fracPart ++ expPart), cs4)

mutual

/-- Parse one JSON value (fuel-indexed recursive descent). -/
def parseValue : Nat → List Char → Except String (Json × List Char)
  | 0, _ => .error "JSON value too deeply nested"
  | fuel + 1, cs =>
    match skipJsonWs cs with
    | [] => .error "Unexpected end of JSON input"
    | c :: rest =>
      if c = 'n' then
        match rest with
        | 'u' :: 'l' :: 'l' :: r => .ok (.null, r)
        | _ => .error "Unexpected token in JSON"
      else if c = 't' then
        match rest with
        | 'r' :: 'u' :: 'e' :: r => .ok (.bool true, r)
        | _ => .error "Unexpected token in JSON"
      else if c = 'f' then
        match rest with
        | 'a' :: 'l' :: 's' :: 'e' :: r => .ok (.bool false, r)
        | _ => .error "Unexpected token in JSON"
      else if c = '"' then
        match parseStringBody [] rest with
        | .error e => .error e
        | .ok (s, r) => .ok (.str s, r)
      else if c = '[' then
        match skipJsonWs rest with
        | ']' :: r => .ok (.arr [], r)
        | cs2 => parseElements fuel [] cs2
      else if c = '\x7b' then
        match skipJsonWs rest with
        | '\x7d' :: r => .ok (.obj [], r)
        | cs2 => parseMembers fuel [] cs2
      else if c = '-' ∨ c.isDigit then
        match parseNumber (c :: rest) with
        | .error e => .error e
        | .ok (lit, r) => .ok (.num lit, r)
      else .error "Unexpected token in JSON"

/-- Parse the remaining elements of a non-empty JSON array. -/
def parseElements : Nat → List Json → List Char → Except String (Json × List Char)
  | 0, _, _ => .error "JSON value too deeply nested"
  | fuel + 1, acc, cs =>
    match parseValue fuel cs with
    | .error e => .error e
    | .ok (v, rest) =>
      match skipJsonWs rest with
      | ',' :: r => parseElements fuel (v :: acc) r
      | ']' :: r => .ok (.arr (v :: acc).reverse, r)
      | _ => .error "Expected comma or closing bracket after array element in JSON"

/-- Parse the remaining members of a non-empty JSON object. -/
def parseMembers : Nat → List (String × Json) → List Char →
    Except String (Json × List Char)
  | 0, _, _ => .error "JSON value too deeply nested"
  | fuel + 1, acc, cs =>
    match skipJsonWs cs with
    | '"' :: rest =>
      match parseStringBody [] rest with
      | .error e => .error e
      | .ok (key, rest2) =>
        match skipJsonWs rest2 with
        | ':' :: rest3 =>
          match parseValue fuel rest3 with
          | .error e => .error e
          | .ok (v, rest4) =>
            match skipJsonWs rest4 with
            | ',' :: r => parseMembers fuel ((key, v) :: acc) r
            | '\x7d' :: r => .ok (.obj ((key, v) :: acc).reverse, r)
            | _ => .error "Expected comma or closing brace after property value in JSON"
        | _ => .error "Expected colon after property name in JSON"
    | _ => .error "Expected property name or closing brace in JSON"

end

/-- `JSON.parse(s)`: parse a complete JSON text; trailing non-whitespace is
an error.  The fuel `s.length + 1` is enough for any input, since every
recursive step consumes at least one character. -/
def jsonParse (s : String) : Except String Json :=
  match parseValue (s.length + 1) s.toList with
  | .error e => .error e
  | .ok (v, rest) =>
    match skipJsonWs rest with
    | [] => .ok v
    | _ => .error "Unexpected non-whitespace character after JSON data"

/-- The `useState` initializer of `AppContent`:
`savedChats ? JSON.parse(savedChats) : []` where
`savedChats = localStorage.getItem('chatHistory')` (`none` when the key is
absent; the empty string is falsy in JavaScript).  An exception thrown by
`JSON.parse` propagates — there is no try/catch — which the `Except` result
records as `.error`. -/
def loadChats (savedChats : Option String) : Except String Json :=
  match savedChats with
  | none => .ok (.arr [])
  | some s => if s = "" then .ok (.arr []) else jsonParse s

/-- A map that would only touch chats whose id matches the active identifier
leaves the list unchanged when no chat matches. -/
theorem map_ite_id (chats : List Chat) (active : Option String)
    (upd : Chat → Chat) (h : ∀ c ∈ chats, some c.id ≠ active) :
    (chats.map fun c => if some c.id = active then upd c else c) = chats := by
  induction chats with
  | nil => rfl
  | cons hd tl ih =>
    have hhd : some hd.id ≠ active := h hd (List.mem_cons_self hd tl)
    simp only [List.map_cons, if_neg hhd, List.cons.injEq, true_and]
    exact ih fun c hc => h c (List.mem_cons_of_mem hd hc)

/-- Claim C6: a failed `processDocument` call (`processPDF` rejecting) leaves
the state — in particular the target session's `pdfData`, `title` and message
list — completely unchanged, and surfaces only the error notification. -/
theorem upload_failure_leaves_state_unchanged (s : AppState) (fileName e msgId ts : String) :
    handleFileUpload s fileName (.error e) msgId ts = (s, some e) := rfl

/-- Claim C8: appending a message (user/system/AI append or document
attachment) addressed to a session id not present in the list is a no-op on
the session list, and a whole send targeting a stale active id leaves the
list unchanged. -/
theorem append_to_absent_session_is_noop (chats : List Chat) (id : String)
    (msg : Message) (fileName : String) (payload : Json)
    (msgId ts m : String) (llm : Except String String)
    (userMsgId userTs aiMsgId aiTs : String)
    (habsent : ∀ c ∈ chats, c.id ≠ id) :
    appendMessage chats (some id) msg = chats ∧
    attachPdf chats (some id) fileName payload msgId ts = chats ∧
    (handleSendMessage ⟨chats, some id⟩ m llm userMsgId userTs aiMsgId aiTs).1.chats
      = chats := by
  have h : ∀ c ∈ chats, some c.id ≠ some id := by
    intro c hc heq
    exact habsent c hc (Option.some.injEq _ _ ▸ heq)
  refine ⟨map_ite_id _ _ _ h, map_ite_id _ _ _ h, ?_⟩
  unfold handleSendMessage
  by_cases hm : jsTrim m = "" ∨ (some id : Option String) = none
  · simp only [hm, if_pos]
  · simp only [hm, if_neg, not_false_eq_true]
    simp only [map_ite_id _ _ _ h]
    cases llm with
    | ok answer => simp only [map_ite_id _ _ _ h]
    | error e => simp only

/-- Witness for C8 at a concrete list and absent identifier. -/
theorem append_to_absent_session_is_noop_witness :
    appendMessage [⟨"a", "New Chat", [], "t0", none⟩] (some "b")
        ⟨"m1", "hi", "user", "t1"⟩ = [⟨"a", "New Chat", [], "t0", none⟩] :=
  (append_to_absent_session_is_noop [⟨"a", "New Chat", [], "t0", none⟩] "b"
    ⟨"m1", "hi", "user", "t1"⟩ "f.pdf" (.num "3") "m2" "t2" "hello" (.ok "ans")
    "u1" "t3" "a1" "t4" (by decide)).1

/-- Claim C10: a send whose message trims to empty, or issued while no
session is active, is a complete no-op — state unchanged, no `queryLLM`
call, no toast — and `ChatWindow.handleSubmit` does not even dispatch a
trimmed-empty message. -/
theorem empty_or_inactive_send_is_noop (s : AppState) (m : String)
    (llm : Except String String) (userMsgId userTs aiMsgId aiTs : String)
    (h : jsTrim m = "" ∨ s.activeChat = none) :
    handleSendMessage s m llm userMsgId userTs aiMsgId aiTs = (s, none, none) ∧
    (jsTrim m = "" → handleSubmit m = (none, m)) := by
  constructor
  · unfold handleSendMessage
    simp only [h, if_pos]
  · intro hm
    unfold handleSubmit
    simp only [hm, ne_eq, not_true_eq_false, if_neg, not_false_eq_true]

/-- Witness for C10 on a whitespace-only message with an active session. -/
theorem empty_or_inactive_send_is_noop_witness :
    handleSendMessage ⟨[⟨"a", "New Chat", [], "t0", none⟩], some "a"⟩ " \t "
        (.ok "ans") "u1" "t1" "a1" "t2"
      = (⟨[⟨"a", "New Chat", [], "t0", none⟩], some "a"⟩, none, none) ∧
    handleSubmit " \t " = (none, " \t ") := by
  have h := empty_or_inactive_send_is_noop
    ⟨[⟨"a", "New Chat", [], "t0", none⟩], some "a"⟩ " \t " (.ok "ans")
    "u1" "t1" "a1" "t2" (Or.inl (by decide))
  exact ⟨h.1, h.2 (by decide)⟩

/-- Counterexample to C1: the startup initializer has no try/catch around
`JSON.parse`, so a persisted value that fails to parse (here the malformed
text `{`) makes `load()` fail the caller instead of returning the empty
list. -/
theorem load_fails_on_malformed_persisted_value :
    loadChats (some "\x7b") =
      .error "Expected property name or closing brace in JSON" := rfl

/-- Claim C1 (amended): `load()` returns the parsed value when the persisted
text parses, the empty list when nothing (or an empty string) is persisted,
and propagates the parse error to the caller when the persisted text fails
to parse. -/
theorem load_parses_or_propagates :
    loadChats none = .ok (.arr []) ∧
    loadChats (some "") = .ok (.arr []) ∧
    (∀ s v, jsonParse s = .ok v → loadChats (some s) = .ok v) ∧
    (∀ s e, s ≠ "" → jsonParse s = .error e → loadChats (some s) = .error e) := by
  refine ⟨rfl, rfl, ?_, ?_⟩
  · intro s v hp
    unfold loadChats
    by_cases hs : s = ""
    · subst hs
      cases hp
    · simp only [if_neg hs, hp]
  · intro s e hs hp
    unfold loadChats
    simp only [if_neg hs, hp]

/-- Witness for the amended C1 on a parseable and a malformed persisted
value. -/
theorem load_parses_or_propagates_witness :
    loadChats (some "[]") = .ok (.arr []) ∧
    loadChats (some "[") = .error "JSON value too deeply nested" :=
  ⟨load_parses_or_propagates.2.2.1 "[]" (.arr []) rfl,
   load_parses_or_propagates.2.2.2 "[" "JSON value too deeply nested"
     (by decide) rfl⟩

/-- Claim C2: a successful upload applies, in the single `setChats` update,
exactly three effects to every chat carrying the active identifier — sets
`pdfData` to the payload, sets the title to reference the file name, and
appends exactly one system message — and leaves the active identifier,
every other chat, and the prior messages untouched. -/
theorem upload_success_updates_active_session (s : AppState)
    (fileName : String) (payload : Json) (msgId ts : String) (i : Nat)
    (hi : i < s.chats.length)
    (hi' : i < (handleFileUpload s fileName (.ok payload) msgId ts).1.chats.length) :
    (handleFileUpload s fileName (.ok payload) msgId ts).1.activeChat
        = s.activeChat ∧
    (handleFileUpload s fileName (.ok payload) msgId ts).1.chats.length
        = s.chats.length ∧
    (some (s.chats.get ⟨i, hi⟩).id = s.activeChat →
      (handleFileUpload s fileName (.ok payload) msgId ts).1.chats.get ⟨i, hi'⟩
        = { s.chats.get ⟨i, hi⟩ with
            pdfData := some payload,
            title := "PDF: " ++ fileName,
            messages := (s.chats.get ⟨i, hi⟩).messages ++
              [⟨msgId, "Uploaded and processed PDF: " ++ fileName,
                "system", ts⟩] }) ∧
    (some (s.chats.get ⟨i, hi⟩).id ≠ s.activeChat →
      (handleFileUpload s fileName (.ok payload) msgId ts).1.chats.get ⟨i, hi'⟩
        = s.chats.get ⟨i, hi⟩) := by
  unfold handleFileUpload attachPdf
  refine ⟨rfl, by simp, ?_, ?_⟩
  · intro hmatch
    simp only [List.get_eq_getElem] at hmatch
    simp only [List.get_eq_getElem, List.getElem_map, if_pos hmatch]
  · intro hmiss
    simp only [List.get_eq_getElem] at hmiss
    simp only [List.get_eq_getElem, List.getElem_map, if_neg hmiss]

/-- Witness for C2: a one-chat list with the active identifier, updated by a
successful upload. -/
theorem upload_success_updates_active_session_witness :
    (handleFileUpload ⟨[⟨"a", "New Chat", [], "t0", none⟩], some "a"⟩
        "doc.pdf" (.ok (.num "3")) "m1" "t1").1.chats.get ⟨0, by decide⟩
      = ⟨"a", "PDF: doc.pdf",
         [⟨"m1", "Uploaded and processed PDF: doc.pdf", "system", "t1"⟩],
         "t0", some (.num "3")⟩ :=
  (upload_success_updates_active_session
    ⟨[⟨"a", "New Chat", [], "t0", none⟩], some "a"⟩ "doc.pdf" (.num "3")
    "m1" "t1" 0 (by decide) (by decide)).2.2.1 rfl

/-- Creating a chat makes the new id active and puts it in the list, so the
active-session invariant holds afterwards. -/
theorem activeOk_createNewChat (s : AppState) (newId now : String) :
    activeOk (createNewChat s newId now) := by
  intro id h
  unfold createNewChat at h ⊢
  simp only [Option.some.injEq] at h
  subst h
  simp

/-- Deleting a chat preserves the active-session invariant. -/
theorem activeOk_handleDeleteChat (s : AppState) (id : String)
    (h : activeOk s) : activeOk (handleDeleteChat s id) := by
  intro a ha
  unfold handleDeleteChat at ha ⊢
  by_cases hact : s.activeChat = some id
  · simp only [if_pos hact] at ha
    cases ha
  · simp only [if_neg hact] at ha
    have hmem := h a ha
    rw [List.mem_map] at hmem
    obtain ⟨c, hc, hcid⟩ := hmem
    have hne : c.id ≠ id := by
      intro hEq
      have haid : a = id := by rw [← hcid, hEq]
      exact hact (by rw [ha, haid])
    simp only [List.mem_map]
    refine ⟨c, ?_, hcid⟩
    simp only [List.mem_filter, decide_eq_true_eq]
    exact ⟨hc, by simpa using hne⟩

/-- Applying any sidebar action preserves the active-session invariant. -/
theorem activeOk_applyOp (s : AppState) (op : SessionOp) (h : activeOk s) :
    activeOk (applyOp s op) := by
  cases op with
  | create newId now => exact activeOk_createNewChat s newId now
  | delete id => exact activeOk_handleDeleteChat s id h

/-- Running any sequence of sidebar actions preserves the invariant. -/
theorem activeOk_runOps (ops : List SessionOp) :
    ∀ s : AppState, activeOk s → activeOk (runOps s ops) := by
  induction ops with
  | nil => intro s h; exact h
  | cons op rest ih =>
    intro s h
    exact ih (applyOp s op) (activeOk_applyOp s op h)

/-- Claim C3: after any sequence of create/delete actions from the initial
state, the active identifier is unset or names a chat in the list; deleting
the active chat always unsets it, and deleting any other identifier (present
or absent) leaves it unchanged. -/
theorem active_session_invariant (ops : List SessionOp) (s : AppState)
    (id : String) (hActive : s.activeChat = some id) :
    activeOk (runOps initialState ops) ∧
    (handleDeleteChat s id).activeChat = none ∧
    (∀ other, other ≠ id → (handleDeleteChat s other).activeChat = s.activeChat) := by
  refine ⟨activeOk_runOps ops initialState (by intro a ha; cases ha), ?_, ?_⟩
  · unfold handleDeleteChat
    simp only [if_pos hActive]
  · intro other hne
    unfold handleDeleteChat
    have : s.activeChat ≠ some other := by
      rw [hActive]
      intro hEq
      exact hne (Option.some.injEq _ _ ▸ hEq.symm)
    simp only [if_neg this]

/-- Witness for C3: a two-action history, deleting the active chat, and
deleting a non-active identifier. -/
theorem active_session_invariant_witness :
    activeOk (runOps initialState [.create "a" "t0", .delete "b"]) ∧
    (handleDeleteChat ⟨[⟨"a", "New Chat", [], "t0", none⟩], some "a"⟩ "a").activeChat
      = none ∧
    (handleDeleteChat ⟨[⟨"a", "New Chat", [], "t0", none⟩], some "a"⟩ "b").activeChat
      = some "a" := by
  have h := active_session_invariant [.create "a" "t0", .delete "b"]
    ⟨[⟨"a", "New Chat", [], "t0", none⟩], some "a"⟩ "a" rfl
  exact ⟨h.1, h.2.1, h.2.2 "b" (by decide)⟩

/-- After the user-append map, searching for the active id finds the first
chat carrying it, with the message appended. -/
theorem find?_appendMessage_active (pre suf : List Chat) (c : Chat)
    (a : String) (msg : Message) (hpre : ∀ p ∈ pre, p.id ≠ a)
    (hc : c.id = a) :
    (((pre ++ c :: suf).map fun chat =>
        if some chat.id = some a then
          { chat with messages := chat.messages ++ [msg] }
        else chat).find? fun ch => some ch.id = some a)
      = some { c with messages := c.messages ++ [msg] } := by
  induction pre with
  | nil =>
    simp only [List.nil_append, List.map_cons, if_pos (congrArg some hc)]
    rw [List.find?_cons]
    simp [hc]
  | cons p rest ih =>
    have hp : p.id ≠ a := hpre p (List.mem_cons_self p rest)
    have hp' : ¬ some p.id = some a := by
      intro hEq
      exact hp (Option.some.injEq _ _ ▸ hEq)
    simp only [List.cons_append, List.map_cons, if_neg hp']
    rw [List.find?_cons]
    have hd : decide (some p.id = some a) = false := decide_eq_false hp'
    simp only [hd]
    exact ih fun q hq => hpre q (List.mem_cons_of_mem p hq)

/-- Claim C7: whenever a non-empty message is sent with an active session
present, `queryLLM` is called — never skipped — with the full ordered
transcript of the active session up to and including the just-sent user
message, and with that session's `pdfData` as context (absent when no
document was ever attached). -/
theorem send_queries_with_full_transcript (s : AppState) (m : String)
    (llm : Except String String) (userMsgId userTs aiMsgId aiTs a : String)
    (pre suf : List Chat) (c : Chat)
    (ha : s.activeChat = some a) (hm : jsTrim m ≠ "")
    (hsplit : s.chats = pre ++ c :: suf) (hc : c.id = a)
    (hpre : ∀ p ∈ pre, p.id ≠ a) :
    (handleSendMessage s m llm userMsgId userTs aiMsgId aiTs).2.1 =
      some ⟨m, c.messages ++ [⟨userMsgId, m, "user", userTs⟩], c.pdfData⟩ := by
  unfold handleSendMessage
  rw [if_neg (by simp [hm, ha])]
  cases llm with
  | ok answer =>
    simp only [ha, hsplit,
      find?_appendMessage_active pre suf c a ⟨userMsgId, m, "user", userTs⟩ hpre hc,
      Option.some_bind]
    rfl
  | error e =>
    simp only [ha, hsplit,
      find?_appendMessage_active pre suf c a ⟨userMsgId, m, "user", userTs⟩ hpre hc,
      Option.some_bind]
    rfl

/-- Witness for C7: a send into a session with no document attached still
issues the query, with the transcript ending in the user message and an
absent context. -/
theorem send_queries_with_full_transcript_witness :
    (handleSendMessage ⟨[⟨"a", "New Chat", [], "t0", none⟩], some "a"⟩
        "What is this?" (.ok "ans") "u1" "t1" "a1" "t2").2.1
      = some ⟨"What is this?", [⟨"u1", "What is this?", "user", "t1"⟩], none⟩ :=
  send_queries_with_full_transcript
    ⟨[⟨"a", "New Chat", [], "t0", none⟩], some "a"⟩ "What is this?"
    (.ok "ans") "u1" "t1" "a1" "t2" "a" [] []
    ⟨"a", "New Chat", [], "t0", none⟩ rfl (by decide) rfl rfl
    (by intro p hp; exact absurd hp (List.not_mem_nil p))

/-- Claim C4: a non-empty send with an active session appends the user
message before `queryLLM` is awaited (the awaited call already carries it),
and when the call fails the final transcript of the active session is
exactly the old one plus that user message — no AI reply — with only the
error notification surfaced. -/
theorem send_failure_keeps_user_message_only (s : AppState) (m e : String)
    (userMsgId userTs aiMsgId aiTs a : String) (pre suf : List Chat)
    (c : Chat) (ha : s.activeChat = some a) (hm : jsTrim m ≠ "")
    (hsplit : s.chats = pre ++ c :: suf) (hc : c.id = a)
    (hpre : ∀ p ∈ pre, p.id ≠ a) :
    (handleSendMessage s m (.error e) userMsgId userTs aiMsgId aiTs).1.chats
        = appendMessage s.chats (some a) ⟨userMsgId, m, "user", userTs⟩ ∧
    ((handleSendMessage s m (.error e) userMsgId userTs aiMsgId aiTs).1.chats.find?
        fun ch => some ch.id = some a)
        = some { c with messages := c.messages ++ [⟨userMsgId, m, "user", userTs⟩] } ∧
    (handleSendMessage s m (.error e) userMsgId userTs aiMsgId aiTs).2.1
        = some ⟨m, c.messages ++ [⟨userMsgId, m, "user", userTs⟩], c.pdfData⟩ ∧
    (handleSendMessage s m (.error e) userMsgId userTs aiMsgId aiTs).2.2 = some e := by
  refine ⟨?_, ?_, ?_, ?_⟩
  · unfold handleSendMessage
    rw [if_neg (by simp [hm, ha])]
    simp only [ha]
    rfl
  · unfold handleSendMessage
    rw [if_neg (by simp [hm, ha])]
    simp only [ha, hsplit,
      find?_appendMessage_active pre suf c a ⟨userMsgId, m, "user", userTs⟩ hpre hc]
  · unfold handleSendMessage
    rw [if_neg (by simp [hm, ha])]
    simp only [ha, hsplit,
      find?_appendMessage_active pre suf c a ⟨userMsgId, m, "user", userTs⟩ hpre hc,
      Option.some_bind]
    rfl
  · unfold handleSendMessage
    rw [if_neg (by simp [hm, ha])]

/-- Witness for C4: a failed send on a one-chat list keeps only the user
message and surfaces the error. -/
theorem send_failure_keeps_user_message_only_witness :
    (handleSendMessage ⟨[⟨"a", "New Chat", [], "t0", none⟩], some "a"⟩
        "Hello" (.error "boom") "u1" "t1" "a1" "t2").1.chats
      = [⟨"a", "New Chat", [⟨"u1", "Hello", "user", "t1"⟩], "t0", none⟩] ∧
    (handleSendMessage ⟨[⟨"a", "New Chat", [], "t0", none⟩], some "a"⟩
        "Hello" (.error "boom") "u1" "t1" "a1" "t2").2.2 = some "boom" := by
  have h := send_failure_keeps_user_message_only
    ⟨[⟨"a", "New Chat", [], "t0", none⟩], some "a"⟩ "Hello" "boom"
    "u1" "t1" "a1" "t2" "a" [] [] ⟨"a", "New Chat", [], "t0", none⟩
    rfl (by decide) rfl rfl
    (by intro p hp; exact absurd hp (List.not_mem_nil p))
  exact ⟨h.1.trans rfl, h.2.2.2⟩

/-- Claim C5 evaluated at its failing input: a fresh session with an empty
transcript receives its first user message and a successful reply, yet the
title stays at the placeholder, because the success updater tests
`chat.messages.length === 0` after the user message was already appended.
The messages themselves are appended as expected. -/
theorem title_not_derived_from_first_message :
    ((handleSendMessage ⟨[⟨"s1", "New Chat", [], "t0", none⟩], some "s1"⟩
        "What is this document about?" (.ok "It is a summary.")
        "u1" "t1" "a1" "t2").1.chats.map Chat.title) = ["New Chat"] ∧
    ((handleSendMessage ⟨[⟨"s1", "New Chat", [], "t0", none⟩], some "s1"⟩
        "What is this document about?" (.ok "It is a summary.")
        "u1" "t1" "a1" "t2").1.chats.map fun c => c.messages.map Message.sender)
      = [["user", "ai"]] :=
  ⟨rfl, rfl⟩

/-- Decoding inverts encoding for one message. -/
theorem decodeMessage_encodeMessage (m : Message) :
    decodeMessage (encodeMessage m) = some m := rfl

/-- Decoding inverts encoding for a message list. -/
theorem decodeMessages_map_encodeMessage (ms : List Message) :
    decodeMessages (ms.map encodeMessage) = some ms := by
  induction ms with
  | nil => rfl
  | cons m rest ih =>
    simp only [List.map_cons, decodeMessages, decodeMessage_encodeMessage, ih]

/-- Decoding inverts encoding for one chat, with or without `pdfData`. -/
theorem decodeChat_encodeChat (c : Chat) :
    decodeChat (encodeChat c) = some c := by
  cases c with
  | mk id title messages createdAt pdfData =>
    cases pdfData with
    | none =>
      simp only [encodeChat, decodeChat, List.append_nil,
        decodeMessages_map_encodeMessage, Option.map_some']
    | some payload =>
      simp only [encodeChat, decodeChat, List.append_eq, List.cons_append,
        List.nil_append, decodeMessages_map_encodeMessage, Option.map_some']

/-- Decoding inverts encoding for a chat list. -/
theorem decodeChatList_map_encodeChat (chats : List Chat) :
    decodeChatList (chats.map encodeChat) = some chats := by
  induction chats with
  | nil => rfl
  | cons c rest ih =>
    simp only [List.map_cons, decodeChatList, decodeChat_encodeChat, ih]

/-- Claim C9: serializing the session list to its persisted JSON
representation and deserializing reproduces an identical list — same session
order, message order and fields — and repeating the round-trip is
idempotent. -/
theorem persisted_roundtrip_identity (chats : List Chat) :
    decodeChats (encodeChats chats) = some chats ∧
    ((decodeChats (encodeChats chats)).bind fun l => decodeChats (encodeChats l))
      = some chats := by
  have h : decodeChats (encodeChats chats) = some chats := by
    simp only [encodeChats, decodeChats, decodeChatList_map_encodeChat]
  refine ⟨h, ?_⟩
  rw [h, Option.some_bind, h]
